import Mathlib

/-!
AthlynkAI court dashboard: playback controller.

A shallow embedding of `nba-court-app/pages/dashboard/court.js`: the React
state of `NBACourtDashboard`, its handlers (`handleDrag`, `handleFindBestPlay`,
`startAnimation`, the Stop button) and the animation `useEffect`.

Modelling conventions.
* Every `useState` cell is a field of `State`.  A handler is a function on
  `State`; an `async` handler is cut at each `await` into the part that runs
  before the suspension and the part that resumes with the awaited value.
* Coordinates and ids are JavaScript numbers that the component only copies
  and compares for equality; they are integers here.
* `setTimeout` callbacks other than the frame timer of the effect are kept in
  `State.timers` with their delay; issued `fetch` calls are kept in
  `State.requests`.
* The frame timer of the effect is cleared by the effect cleanup whenever
  `isAnimating`, `animationData` or `animationFrame` changes, so at any moment
  it is pending exactly when the first branch of the effect holds for the
  current state; it is therefore a function of the state (`currentFrame`).
-/

namespace Court

/-! ## Data model -/

/-- An element of the `players` state (court.js 72-86). -/
structure Player where
  id : Int
  x : Int
  y : Int
  team : String
deriving DecidableEq, Repr

/-- An element of `currentFrame.players` (court.js 117-121). -/
structure FramePlayer where
  id : Int
  x : Int
  y : Int
deriving DecidableEq, Repr

/-- The `ballPosition` state and `currentFrame.ball` (court.js 96, 126-130). -/
structure Ball where
  x : Int
  y : Int
  z : Int
deriving DecidableEq, Repr

/-- An element of `animationData.frames`. -/
structure Frame where
  players : List FramePlayer
  ball : Ball
deriving DecidableEq, Repr

/-- The JSON body answered by `get-movement-data` (court.js 149-162). -/
structure MovementResult where
  error : Option String
  frames : List Frame
  note : Option String
deriving DecidableEq, Repr

/-- The `best_play` member of a simulation result (court.js 183-190). -/
structure BestPlay where
  game_id : String
  event_id : String
deriving DecidableEq, Repr

/-- The value `findBestPlay` resolves to (court.js 33-41). -/
structure MatchResult where
  error : Option String
  best_play : Option BestPlay
deriving DecidableEq, Repr

/-- An element of the `positions` request body (court.js 16-21). -/
structure Position where
  player_id : Int
  team_id : Nat
  x : Int
  y : Int
deriving DecidableEq, Repr

/-- A `fetch` call issued by the component. -/
inductive Request where
  | fastSimulate (positions : List Position)
  | getMovementData (gameId eventId : String)
deriving DecidableEq, Repr

/-- What a pending `setTimeout` callback does when it fires. -/
inductive TimerAction where
  | clearStatus
  | startAnimation (gameId eventId : String)
deriving DecidableEq, Repr

/-- A pending `setTimeout` callback with its delay in milliseconds. -/
structure Timer where
  delay : Nat
  action : TimerAction
deriving DecidableEq, Repr

/-- The component state (court.js 8, 72-96) with the pending timers and the
log of issued requests. -/
structure State where
  players : List Player
  showPlayResult : Bool
  playResult : Option MatchResult
  animationStatus : String
  isAnimating : Bool
  animationFrame : Nat
  animationData : Option MovementResult
  ballPosition : Ball
  isLoading : Bool
  timers : List Timer
  requests : List Request
deriving DecidableEq, Repr

/-- The initial `players` list (court.js 72-86). -/
def initialPlayers : List Player :=
  [ { id := 1, x := 200, y := 300, team := "red" },
    { id := 2, x := 180, y := 200, team := "red" },
    { id := 3, x := 180, y := 400, team := "red" },
    { id := 4, x := 120, y := 250, team := "red" },
    { id := 5, x := 120, y := 350, team := "red" },
    { id := 6, x := 240, y := 300, team := "blue" },
    { id := 7, x := 220, y := 220, team := "blue" },
    { id := 8, x := 220, y := 380, team := "blue" },
    { id := 9, x := 160, y := 270, team := "blue" },
    { id := 10, x := 160, y := 330, team := "blue" } ]

/-- The state of the component at mount (court.js 8, 72-96). -/
def initialState : State :=
  { players := initialPlayers
    showPlayResult := false
    playResult := none
    animationStatus := ""
    isAnimating := false
    animationFrame := 0
    animationData := none
    ballPosition := { x := 200, y := 300, z := 10 }
    isLoading := false
    timers := []
    requests := [] }

/-- JavaScript truthiness of an optional string member: `undefined` and the
empty string are falsy. -/
def truthy : Option String → Bool
  | none => false
  | some str => str != ""

/-! ## Entity store writes -/

/-- The updater passed to `setPlayers` in `handleDrag` (court.js 103-105). -/
def dragPlayers (id x y : Int) (prev : List Player) : List Player :=
  prev.map fun player =>
    if player.id == id then { player with x := x, y := y } else player

/-- The drag handler `handleDrag(id, x, y)` (court.js 101-107). -/
def handleDrag (s : State) (id x y : Int) : State :=
  if !s.isAnimating then
    { s with players := dragPlayers id x y s.players }
  else s

/-- The updater passed to `setPlayers` by the frame timer (court.js 116-123). -/
def applyFrame (currentFrame : Frame) (prev : List Player) : List Player :=
  prev.map fun player =>
    match currentFrame.players.find? (fun p => p.id == player.id) with
    | some framePlayer => { player with x := framePlayer.x, y := framePlayer.y }
    | none => player

/-! ## Animation effect -/

/-- The branch the animation effect takes for a state (court.js 110-142). -/
inductive EffectBranch where
  | scheduleTick
  | complete
  | idle
deriving DecidableEq, Repr

/-- The conditions of the `if` / `else if` of the effect (court.js 111, 136).
With `animationData` null the first test fails and the second compares
`animationFrame >= undefined`, which is false. -/
def animationEffect (s : State) : EffectBranch :=
  match s.animationData with
  | some d =>
    if s.isAnimating && decide (s.animationFrame < d.frames.length) then .scheduleTick
    else if s.isAnimating && decide (s.animationFrame ≥ d.frames.length) then .complete
    else .idle
  | none => .idle

/-- The frame the pending frame timer will read,
`animationData.frames[animationFrame]` (court.js 111-113); `none` when no
frame timer is pending. -/
def currentFrame (s : State) : Option Frame :=
  match s.animationData with
  | some d =>
    if animationEffect s = .scheduleTick then d.frames[s.animationFrame]? else none
  | none => none

/-- The frame timer callback (court.js 112-133): one tick of playback. -/
def tick (s : State) : Option State :=
  match currentFrame s with
  | some frame =>
    some { s with
      players := applyFrame frame s.players
      ballPosition := { x := frame.ball.x, y := frame.ball.y, z := frame.ball.z }
      animationFrame := s.animationFrame + 1 }
  | none => none

/-- The completion branch of the effect (court.js 136-141). -/
def completeAnimation (s : State) : Option State :=
  if animationEffect s = .complete then
    some { s with
      isAnimating := false
      animationStatus := "Animation complete!"
      timers := s.timers ++ [{ delay := 2000, action := .clearStatus }] }
  else none

/-- The `onClick` of the Stop button (court.js 248). -/
def userStop (s : State) : State :=
  { s with isAnimating := false }

/-! ## Match request and sequence loading -/

/-- The `positions` body built by `findBestPlay` (court.js 16-21). -/
def positions (players : List Player) : List Position :=
  players.mapIdx fun idx player =>
    { player_id := (idx : Int) + 1
      team_id := if idx < 5 then 0 else 1
      x := player.x
      y := player.y }

/-- The part of `handleFindBestPlay` that runs up to the `fetch` inside
`findBestPlay` (court.js 174-176, 11-27). -/
def handleFindBestPlay (s : State) : State :=
  { s with
    animationStatus := "Finding best play..."
    isLoading := true
    requests := s.requests ++ [.fastSimulate (positions s.players)] }

/-- A click on the find-best-play button (court.js 272-274): the button is
disabled while `isLoading || isAnimating`, and a disabled button delivers no
click. -/
def clickFindBestPlay (s : State) : State :=
  if s.isLoading || s.isAnimating then s else handleFindBestPlay s

/-- The `catch` of `handleFindBestPlay` (court.js 193-196). -/
def searchFailed (s : State) : State :=
  { s with
    animationStatus := "Search failed"
    timers := s.timers ++ [{ delay := 3000, action := .clearStatus }] }

/-- The rest of `handleFindBestPlay` once `findBestPlay` settles (court.js
29-44, 178-196).  `Except.error msg` is a rejected `fetch` or a response that
is not ok, which `findBestPlay` turns into the result with `error: msg`. -/
def resumeFindBestPlay (s : State) (response : Except String MatchResult) : State :=
  let s1 := { s with isLoading := false }
  let result : MatchResult :=
    match response with
    | .ok r => r
    | .error msg => { error := some msg, best_play := none }
  if truthy result.error then
    { s1 with animationStatus := "Error: " ++ result.error.getD "" }
  else
    let s2 := { s1 with playResult := some result, showPlayResult := true }
    match result.best_play with
    | some best_play =>
      { s2 with
        animationStatus := "Found: Game " ++ best_play.game_id ++ ", Event " ++ best_play.event_id
        timers := s2.timers ++ [{ delay := 500, action := .startAnimation best_play.game_id best_play.event_id }] }
    | none => searchFailed s2

/-- The part of `startAnimation` that runs up to the `fetch` inside
`getMovementData` (court.js 147-149, 49-53). -/
def startAnimation (s : State) (gameId eventId : String) : State :=
  { s with
    animationStatus := "Loading real NBA data: Game " ++ gameId ++ ", Event " ++ eventId ++ "..."
    requests := s.requests ++ [.getMovementData gameId eventId] }

/-- The rest of `startAnimation` once `getMovementData` settles (court.js
151-168).  `Except.error msg` is the error `getMovementData` rethrows. -/
def resumeStartAnimation (s : State) (response : Except String MovementResult) : State :=
  match response with
  | .error msg =>
    { s with
      animationStatus := "Animation failed: " ++ msg
      timers := s.timers ++ [{ delay := 5000, action := .clearStatus }] }
  | .ok movementResult =>
    if truthy movementResult.error then
      { s with
        animationStatus := "Real NBA data not available: " ++ movementResult.error.getD ""
        timers := s.timers ++ [{ delay := 5000, action := .clearStatus }] }
    else
      { s with
        animationData := some movementResult
        animationFrame := 0
        isAnimating := true
        animationStatus :=
          "Playing REAL NBA DATA: " ++ toString movementResult.frames.length ++ " frames from "
            ++ (if truthy movementResult.note then movementResult.note.getD "" else "NBA game") }

/-- Firing of the pending timer at position `i` of `State.timers`. -/
def fireTimer (s : State) (i : Nat) : Option State :=
  match s.timers[i]? with
  | some timer =>
    let s1 := { s with timers := s.timers.eraseIdx i }
    match timer.action with
    | .clearStatus => some { s1 with animationStatus := "" }
    | .startAnimation gameId eventId => some (startAnimation s1 gameId eventId)
  | none => none

/-! ## Runs -/

/-- Run `k` ticks of the frame timer; `none` if some tick is not enabled. -/
def runTicks : Nat → State → Option State
  | 0, s => some s
  | k + 1, s =>
    match tick s with
    | some s1 => runTicks k s1
    | none => none

/-- The frames read by the first `k` ticks from a state, in the order the
ticks apply them; the list stops at the first tick that is not enabled. -/
def appliedFrames : Nat → State → List Frame
  | 0, _ => []
  | k + 1, s =>
    match currentFrame s, tick s with
    | some frame, some s1 => frame :: appliedFrames k s1
    | _, _ => []

/-- Something that can happen to the mounted component. -/
inductive Event where
  | drag (id x y : Int)
  | stop
  | clickFind
  | matchSettled (response : Except String MatchResult)
  | timerFired (i : Nat)
  | movementSettled (response : Except String MovementResult)
  | frameTimer
  | effectRan
  | dismissPlayResult
deriving Repr

/-- One event applied to a state; an event that is not enabled leaves the
state as it is.  The player elements call `handleDrag` only when
`!isAnimating` (court.js 330-334), which `handleDrag` tests again; the Stop
button exists only while `isAnimating` (court.js 246-248). -/
def step (s : State) : Event → State
  | .drag id x y => handleDrag s id x y
  | .stop => if s.isAnimating then userStop s else s
  | .clickFind => clickFindBestPlay s
  | .matchSettled response => resumeFindBestPlay s response
  | .timerFired i => (fireTimer s i).getD s
  | .movementSettled response => resumeStartAnimation s response
  | .frameTimer => (tick s).getD s
  | .effectRan => (completeAnimation s).getD s
  | .dismissPlayResult => { s with showPlayResult := false }

/-- Run a list of events from a state. -/
def run (s : State) (events : List Event) : State :=
  events.foldl step s

/-- States the component can be in: those a list of events leads to from the
state at mount. -/
def Reachable (s : State) : Prop :=
  ∃ events : List Event, run initialState events = s

/-- The fields a run of ticks never writes. -/
def SameControl (s t : State) : Prop :=
  t.isAnimating = s.isAnimating ∧ t.animationData = s.animationData ∧
  t.animationStatus = s.animationStatus ∧ t.timers = s.timers ∧
  t.requests = s.requests ∧ t.isLoading = s.isLoading ∧
  t.showPlayResult = s.showPlayResult ∧ t.playResult = s.playResult

/-- Rosters obtained from the initial roster by drags and frame applications. -/
inductive RosterReachable : List Player → Prop where
  | initial : RosterReachable initialPlayers
  | drag (id x y : Int) {roster : List Player} :
      RosterReachable roster → RosterReachable (dragPlayers id x y roster)
  | frame (f : Frame) {roster : List Player} :
      RosterReachable roster → RosterReachable (applyFrame f roster)

/-- Whether an event loads a sequence: a settled `getMovementData` whose body
passes the `movementResult.error` test of `startAnimation`. -/
def loadsSequence : Event → Bool
  | .movementSettled (.ok movementResult) => !truthy movementResult.error
  | _ => false

/-- The `players` writes of the drags of an event list, in order. -/
def dragsOnly (events : List Event) (players : List Player) : List Player :=
  events.foldl (fun ps e =>
    match e with
    | .drag id x y => dragPlayers id x y ps
    | _ => ps) players

/-- A two-frame sequence used in the examples. -/
def demoMovement : MovementResult :=
  { error := none
    note := none
    frames :=
      [ { players := [⟨1, 210, 310⟩, ⟨6, 250, 305⟩], ball := ⟨210, 310, 12⟩ },
        { players := [⟨1, 220, 320⟩, ⟨2, 190, 210⟩], ball := ⟨225, 318, 30⟩ } ] }

/-- A successful match response used in the examples. -/
def demoMatch : MatchResult :=
  { error := none, best_play := some { game_id := "G1", event_id := "E1" } }

/-- Events from mount to the start of playback of `demoMovement`. -/
def demoStart : List Event :=
  [.clickFind, .matchSettled (.ok demoMatch), .timerFired 0, .movementSettled (.ok demoMovement)]

/-- The frame index never passes the end of the loaded sequence, and playback
is on only with a loaded sequence. -/
def FrameBound (s : State) : Prop :=
  (∀ d, s.animationData = some d → s.animationFrame ≤ d.frames.length) ∧
  (s.isAnimating = true → ∃ d, s.animationData = some d)

/-- The state while the 500 ms timer that will call `startAnimation` is
pending: the match for `demoMatch` has settled, no sequence is requested yet. -/
def awaitingTimerState : State :=
  run initialState [.clickFind, .matchSettled (.ok demoMatch)]

/-- The state while `getMovementData` is pending: the 500 ms timer has fired
and `startAnimation` waits for the sequence. -/
def awaitingFetchState : State :=
  run initialState [.clickFind, .matchSettled (.ok demoMatch), .timerFired 0]

/-- The state while `findBestPlay` is pending, right after a click at mount. -/
def searchingState : State :=
  run initialState [.clickFind]

/-- The state after `demoMovement` has played to the end and the completion
branch has run. -/
def completeState : State :=
  run initialState (demoStart ++ [.frameTimer, .frameTimer, .effectRan])

/-- Whether a settled `findBestPlay` is a failed match request: a rejected
`fetch` or a response that is not ok (turned into `error: message`, court.js
39-41), or a body carrying a truthy `error` (court.js 178). -/
def matchFails : Except String MatchResult → Bool
  | .error msg => truthy (some msg)
  | .ok result => truthy result.error

/-- Whether a settled `getMovementData` is a failed sequence fetch: it threw
(court.js 61-64, 164) or its body carries a truthy `error` (court.js 151). -/
def sequenceFails : Except String MovementResult → Bool
  | .error _ => true
  | .ok movementResult => truthy movementResult.error

/-- A rejected match, the body `error: "no match found"`. -/
def noMatchResponse : MatchResult :=
  { error := some "no match found", best_play := none }

/-- The state after a click at mount whose match request was answered with
`noMatchResponse`. -/
def matchFailedState : State :=
  run initialState [.clickFind, .matchSettled (.ok noMatchResponse)]

/-- The state after a click at mount whose `fetch` got a response that is not
ok, so that `findBestPlay` threw `Simulation failed`. -/
def matchThrewState : State :=
  run initialState [.clickFind, .matchSettled (.error "Simulation failed")]

/-- A sequence response with no `error` and an empty `frames` list. -/
def emptyMovement : MovementResult :=
  { error := none, frames := [], note := none }

/-! ## Lemmas on the frame timer -/

theorem animationEffect_scheduleTick (s : State) (d : MovementResult)
    (hd : s.animationData = some d) (ha : s.isAnimating = true)
    (hlt : s.animationFrame < d.frames.length) :
    animationEffect s = .scheduleTick := by
  simp [animationEffect, hd, ha, hlt]

theorem currentFrame_playing (s : State) (d : MovementResult)
    (hd : s.animationData = some d) (ha : s.isAnimating = true)
    (hlt : s.animationFrame < d.frames.length) :
    currentFrame s = some (d.frames.get ⟨s.animationFrame, hlt⟩) := by
  have h := animationEffect_scheduleTick s d hd ha hlt
  simp only [currentFrame, hd, h, if_true]
  exact List.getElem?_eq_getElem hlt

theorem tick_playing (s : State) (d : MovementResult)
    (hd : s.animationData = some d) (ha : s.isAnimating = true)
    (hlt : s.animationFrame < d.frames.length) :
    tick s = some { s with
      players := applyFrame (d.frames.get ⟨s.animationFrame, hlt⟩) s.players
      ballPosition := (d.frames.get ⟨s.animationFrame, hlt⟩).ball
      animationFrame := s.animationFrame + 1 } := by
  simp only [tick, currentFrame_playing s d hd ha hlt]

theorem runTicks_playing (k : Nat) : ∀ (s : State) (d : MovementResult),
    s.animationData = some d → s.isAnimating = true →
    s.animationFrame + k ≤ d.frames.length →
    ∃ sk, runTicks k s = some sk ∧
      appliedFrames k s = (d.frames.drop s.animationFrame).take k ∧
      sk.animationFrame = s.animationFrame + k ∧
      sk.players = ((d.frames.drop s.animationFrame).take k).foldl
        (fun ps f => applyFrame f ps) s.players ∧
      sk.ballPosition = ((d.frames.drop s.animationFrame).take k).foldl
        (fun _ f => f.ball) s.ballPosition ∧
      SameControl s sk := by
  induction k with
  | zero =>
    intro s d _ _ _
    exact ⟨s, rfl, by simp [appliedFrames], rfl, by simp, by simp,
      rfl, rfl, rfl, rfl, rfl, rfl, rfl, rfl⟩
  | succ k ih =>
    intro s d hd ha hle
    have hlt : s.animationFrame < d.frames.length := by omega
    have ht := tick_playing s d hd ha hlt
    have hc := currentFrame_playing s d hd ha hlt
    obtain ⟨sk, hrun, happ, hfr, hpl, hball, hsame⟩ :=
      ih { s with
          players := applyFrame (d.frames.get ⟨s.animationFrame, hlt⟩) s.players
          ballPosition := (d.frames.get ⟨s.animationFrame, hlt⟩).ball
          animationFrame := s.animationFrame + 1 } d hd ha
        (by show s.animationFrame + 1 + k ≤ d.frames.length; omega)
    have hdrop : d.frames.drop s.animationFrame
        = d.frames.get ⟨s.animationFrame, hlt⟩ :: d.frames.drop (s.animationFrame + 1) := by
      exact List.drop_eq_getElem_cons hlt
    refine ⟨sk, ?_, ?_, ?_, ?_, ?_, ?_⟩
    · simp only [runTicks, ht]; exact hrun
    · simp only [appliedFrames, hc, ht, hdrop, List.take_succ_cons]
      simpa using happ
    · simp only [hfr]; omega
    · simp only [hdrop, List.take_succ_cons, List.foldl_cons]; simpa using hpl
    · simp only [hdrop, List.take_succ_cons, List.foldl_cons]; simpa using hball
    · obtain ⟨h1, h2, h3, h4, h5, h6, h7, h8⟩ := hsame
      exact ⟨h1, h2, h3, h4, h5, h6, h7, h8⟩

theorem resumeStartAnimation_loaded (s : State) (d : MovementResult)
    (herr : truthy d.error = false) :
    (resumeStartAnimation s (.ok d)).isAnimating = true ∧
    (resumeStartAnimation s (.ok d)).animationFrame = 0 ∧
    (resumeStartAnimation s (.ok d)).animationData = some d ∧
    (resumeStartAnimation s (.ok d)).players = s.players ∧
    (resumeStartAnimation s (.ok d)).ballPosition = s.ballPosition ∧
    (resumeStartAnimation s (.ok d)).timers = s.timers := by
  simp [resumeStartAnimation, herr]

/-! ## Playback order (C1) -/

/-- C1: from the state `startAnimation` sets for a loaded sequence
(`isAnimating = true`, `animationFrame = 0`), `k ≤ L` ticks are all enabled,
the frames they apply are exactly `frames[0], ..., frames[k-1]` in that order
(none skipped, repeated or reordered), `animationFrame` ends at `k`, and
`players` / `ballPosition` are the result of applying those frames in order. -/
theorem frames_applied_in_sequence_order (s : State) (d : MovementResult) (k : Nat)
    (herr : truthy d.error = false) (hk : k ≤ d.frames.length) :
    (resumeStartAnimation s (.ok d)).isAnimating = true ∧
    (resumeStartAnimation s (.ok d)).animationFrame = 0 ∧
    appliedFrames k (resumeStartAnimation s (.ok d)) = d.frames.take k ∧
    ∃ sk, runTicks k (resumeStartAnimation s (.ok d)) = some sk ∧
      sk.animationFrame = k ∧
      sk.players = (d.frames.take k).foldl (fun ps f => applyFrame f ps) s.players ∧
      sk.ballPosition = (d.frames.take k).foldl (fun _ f => f.ball) s.ballPosition := by
  obtain ⟨ha, hf, hd, hp, hb, _⟩ := resumeStartAnimation_loaded s d herr
  obtain ⟨sk, hrun, happ, hfr, hpl, hball, _⟩ :=
    runTicks_playing k (resumeStartAnimation s (.ok d)) d hd ha (by omega)
  rw [hf] at happ hfr hpl hball
  rw [hp] at hpl
  rw [hb] at hball
  simp only [List.drop_zero, Nat.zero_add] at happ hfr hpl hball
  exact ⟨ha, hf, happ, sk, hrun, hfr, hpl, hball⟩

/-- Witness for C1: both frames of `demoMovement`, started from the state at
mount. -/
theorem frames_applied_in_sequence_order_witness :
    truthy demoMovement.error = false ∧ 2 ≤ demoMovement.frames.length ∧
    appliedFrames 2 (resumeStartAnimation initialState (.ok demoMovement))
      = demoMovement.frames.take 2 :=
  ⟨by decide, by decide,
    (frames_applied_in_sequence_order initialState demoMovement 2
      (by decide) (by decide)).2.2.1⟩

/-! ## Frame index invariant (C2) -/

theorem currentFrame_some (s : State) (f : Frame) (h : currentFrame s = some f) :
    ∃ d, s.animationData = some d ∧ s.isAnimating = true ∧
      s.animationFrame < d.frames.length ∧ d.frames[s.animationFrame]? = some f := by
  unfold currentFrame at h
  cases hd : s.animationData with
  | none => simp [hd] at h
  | some d =>
    simp only [hd] at h
    by_cases hb : animationEffect s = .scheduleTick
    · simp only [hb, if_true] at h
      have hlt : s.animationFrame < d.frames.length := by
        by_contra hge
        rw [List.getElem?_eq_none (by omega)] at h
        cases h
      have ha : s.isAnimating = true := by
        cases hi : s.isAnimating with
        | true => rfl
        | false => simp [animationEffect, hd, hi] at hb
      exact ⟨d, rfl, ha, hlt, h⟩
    · simp [hb] at h

theorem tick_some (s t : State) (h : tick s = some t) :
    ∃ d f, s.animationData = some d ∧ s.isAnimating = true ∧
      s.animationFrame < d.frames.length ∧ d.frames[s.animationFrame]? = some f ∧
      t = { s with
        players := applyFrame f s.players
        ballPosition := f.ball
        animationFrame := s.animationFrame + 1 } := by
  unfold tick at h
  cases hc : currentFrame s with
  | none => simp [hc] at h
  | some f =>
    simp only [hc, Option.some.injEq] at h
    obtain ⟨d, hd, ha, hlt, hf⟩ := currentFrame_some s f hc
    exact ⟨d, f, hd, ha, hlt, hf, h.symm⟩

theorem frameBound_step (s : State) (e : Event) (h : FrameBound s) :
    FrameBound (step s e) := by
  obtain ⟨h1, h2⟩ := h
  cases e with
  | drag id x y =>
    simp only [step, handleDrag]
    split
    · exact ⟨h1, h2⟩
    · exact ⟨h1, h2⟩
  | stop =>
    simp only [step, userStop]
    split
    · exact ⟨h1, by simp⟩
    · exact ⟨h1, h2⟩
  | clickFind =>
    simp only [step, clickFindBestPlay, handleFindBestPlay]
    split
    · exact ⟨h1, h2⟩
    · exact ⟨h1, h2⟩
  | matchSettled response =>
    simp only [step, resumeFindBestPlay, searchFailed]
    split
    · exact ⟨h1, h2⟩
    · split
      · exact ⟨h1, h2⟩
      · exact ⟨h1, h2⟩
  | timerFired i =>
    simp only [step, fireTimer]
    cases s.timers[i]? with
    | none => exact ⟨h1, h2⟩
    | some timer =>
      cases hact : timer.action with
      | clearStatus => simp only [hact, Option.getD_some]; exact ⟨h1, h2⟩
      | startAnimation g ev =>
        simp only [hact, Option.getD_some, startAnimation]; exact ⟨h1, h2⟩
  | movementSettled response =>
    cases response with
    | error msg => simp only [step, resumeStartAnimation]; exact ⟨h1, h2⟩
    | ok r =>
      simp only [step, resumeStartAnimation]
      split
      · exact ⟨h1, h2⟩
      · refine ⟨?_, ?_⟩
        · intro d _; exact Nat.zero_le _
        · intro _; exact ⟨r, rfl⟩
  | frameTimer =>
    simp only [step]
    cases ht : tick s with
    | none => exact ⟨h1, h2⟩
    | some t =>
      obtain ⟨d, f, hd, ha, hlt, _, rfl⟩ := tick_some s t ht
      refine ⟨?_, ?_⟩
      · intro d2 hd2
        have : d2 = d := by
          have h3 : s.animationData = some d2 := hd2
          rw [hd] at h3; exact (Option.some.inj h3).symm
        subst this
        show s.animationFrame + 1 ≤ d2.frames.length
        omega
      · intro _; exact ⟨d, hd⟩
  | effectRan =>
    simp only [step, completeAnimation]
    split
    · exact ⟨h1, by simp⟩
    · exact ⟨h1, h2⟩
  | dismissPlayResult => exact ⟨h1, h2⟩

theorem frameBound_run (events : List Event) :
    ∀ s, FrameBound s → FrameBound (run s events) := by
  induction events with
  | nil => intro s h; exact h
  | cons e rest ih => intro s h; exact ih _ (frameBound_step s e h)

theorem frameBound_initial : FrameBound initialState :=
  ⟨fun _ h => (by cases h), fun h => (by cases h)⟩

/-- C2, as stated, fails: playing `demoMovement` (two frames) from mount, the
state after the first tick has `animationFrame = 1` while `players` and
`ballPosition` hold `frames[0]`, not `frames[1]`; the state after the second
tick is still playing (`isAnimating = true`) with `animationFrame = 2`, which
is not an index into the two-frame sequence. -/
theorem frame_index_not_always_valid :
    Reachable (run initialState (demoStart ++ [.frameTimer])) ∧
    (run initialState (demoStart ++ [.frameTimer])).isAnimating = true ∧
    (run initialState (demoStart ++ [.frameTimer])).animationData = some demoMovement ∧
    (run initialState (demoStart ++ [.frameTimer])).animationFrame = 1 ∧
    demoMovement.frames[1]? = some ⟨[⟨1, 220, 320⟩, ⟨2, 190, 210⟩], ⟨225, 318, 30⟩⟩ ∧
    (run initialState (demoStart ++ [.frameTimer])).ballPosition = ⟨210, 310, 12⟩ ∧
    (run initialState (demoStart ++ [.frameTimer])).players
      ≠ applyFrame ⟨[⟨1, 220, 320⟩, ⟨2, 190, 210⟩], ⟨225, 318, 30⟩⟩ initialPlayers ∧
    Reachable (run initialState (demoStart ++ [.frameTimer, .frameTimer])) ∧
    (run initialState (demoStart ++ [.frameTimer, .frameTimer])).isAnimating = true ∧
    (run initialState (demoStart ++ [.frameTimer, .frameTimer])).animationData
      = some demoMovement ∧
    ¬ ((run initialState (demoStart ++ [.frameTimer, .frameTimer])).animationFrame
      < demoMovement.frames.length) := by
  refine ⟨⟨_, rfl⟩, ?_, ?_, ?_, ?_, ?_, ?_, ⟨_, rfl⟩, ?_, ?_, ?_⟩ <;> decide

/-- C2, amended: in every reachable state with a loaded sequence
`0 ≤ animationFrame ≤ frames.length` (`animationFrame` is the index of the
next frame to apply), playback is on only with a loaded sequence, and after a
tick commits `animationFrame ≥ 1`, `ballPosition` is the ball of
`frames[animationFrame - 1]` and `players` is the previous list with
`frames[animationFrame - 1]` applied. -/
theorem frame_index_is_next_to_apply (s : State) (hr : Reachable s) :
    (∀ d, s.animationData = some d → s.animationFrame ≤ d.frames.length) ∧
    (s.isAnimating = true → ∃ d, s.animationData = some d) ∧
    ∀ t, tick s = some t →
      ∃ d f, s.animationData = some d ∧ t.animationData = some d ∧
        t.isAnimating = true ∧
        t.animationFrame = s.animationFrame + 1 ∧
        t.animationFrame ≤ d.frames.length ∧
        d.frames[t.animationFrame - 1]? = some f ∧
        t.ballPosition = f.ball ∧
        t.players = applyFrame f s.players := by
  obtain ⟨events, rfl⟩ := hr
  obtain ⟨h1, h2⟩ := frameBound_run events initialState frameBound_initial
  refine ⟨h1, h2, ?_⟩
  intro t ht
  obtain ⟨d, f, hd, ha, hlt, hf, rfl⟩ := tick_some _ t ht
  exact ⟨d, f, hd, hd, ha, rfl, by show _ + 1 ≤ _; omega, by simpa using hf, rfl, rfl⟩

/-- Witness for C2 (amended): the state in which playback of `demoMovement`
has just started. -/
theorem frame_index_is_next_to_apply_witness :
    Reachable (run initialState demoStart) ∧
    ∀ d, (run initialState demoStart).animationData = some d →
      (run initialState demoStart).animationFrame ≤ d.frames.length :=
  ⟨⟨demoStart, rfl⟩,
    (frame_index_is_next_to_apply (run initialState demoStart) ⟨demoStart, rfl⟩).1⟩

/-! ## Stop (C3) -/

theorem animationEffect_idle (s : State) (h : s.isAnimating = false) :
    animationEffect s = .idle := by
  unfold animationEffect
  cases s.animationData <;> simp [h]

theorem tick_none_of_stopped (s : State) (h : s.isAnimating = false) :
    currentFrame s = none ∧ tick s = none ∧ completeAnimation s = none := by
  have he := animationEffect_idle s h
  have hc : currentFrame s = none := by
    unfold currentFrame
    cases s.animationData <;> simp [he]
  exact ⟨hc, by simp [tick, hc], by simp [completeAnimation, he]⟩

theorem step_stopped (s : State) (e : Event) (h : s.isAnimating = false)
    (hl : loadsSequence e = false) :
    (step s e).isAnimating = false ∧
    (step s e).ballPosition = s.ballPosition ∧
    (step s e).players = dragsOnly [e] s.players := by
  obtain ⟨_, ht, hc⟩ := tick_none_of_stopped s h
  cases e with
  | drag id x y => simp [step, handleDrag, h, dragsOnly]
  | stop => simp [step, h, dragsOnly]
  | clickFind =>
    simp only [step, clickFindBestPlay, handleFindBestPlay, dragsOnly, List.foldl]
    split <;> simp [h]
  | matchSettled response =>
    simp only [step, resumeFindBestPlay, searchFailed, dragsOnly, List.foldl]
    split
    · simp [h]
    · split <;> simp [h]
  | timerFired i =>
    simp only [step, fireTimer, dragsOnly, List.foldl]
    cases s.timers[i]? with
    | none => simp [h]
    | some timer =>
      cases hact : timer.action with
      | clearStatus => simp [hact, h]
      | startAnimation g ev => simp [hact, h, startAnimation]
  | movementSettled response =>
    cases response with
    | error msg => simp [step, resumeStartAnimation, h, dragsOnly]
    | ok r =>
      have hr : truthy r.error = true := by simpa [loadsSequence] using hl
      simp [step, resumeStartAnimation, hr, h, dragsOnly]
  | frameTimer => simp [step, ht, h, dragsOnly]
  | effectRan => simp [step, hc, h, dragsOnly]
  | dismissPlayResult => simp [step, h, dragsOnly]

theorem run_stopped (events : List Event) :
    ∀ s : State, s.isAnimating = false →
      (∀ e ∈ events, loadsSequence e = false) →
      (run s events).isAnimating = false ∧
      (run s events).ballPosition = s.ballPosition ∧
      (run s events).players = dragsOnly events s.players := by
  induction events with
  | nil => intro s h _; exact ⟨h, rfl, rfl⟩
  | cons e rest ih =>
    intro s h hno
    obtain ⟨h1, h2, h3⟩ := step_stopped s e h (hno e (List.mem_cons_self _ _))
    obtain ⟨k1, k2, k3⟩ := ih (step s e) h1
      (fun e2 he2 => hno e2 (List.mem_cons_of_mem _ he2))
    refine ⟨k1, ?_, ?_⟩
    · show (run (step s e) rest).ballPosition = s.ballPosition
      rw [k2, h2]
    · show (run (step s e) rest).players = dragsOnly (e :: rest) s.players
      rw [k3, h3]
      rfl

/-- C3: the Stop button changes only `isAnimating`: `players`, `ballPosition`,
`animationFrame`, `animationData` and every other field stay as the last
applied frame left them.  In the resulting state neither the frame timer nor
the completion branch is enabled, and along every later run of events that
loads no new sequence the frame timer stays disabled, `ballPosition` is never
written and `players` is written by drags only. -/
theorem userStop_retains_last_frame (s : State) (events : List Event)
    (hno : ∀ e ∈ events, loadsSequence e = false) :
    (userStop s).isAnimating = false ∧
    (userStop s).players = s.players ∧
    (userStop s).ballPosition = s.ballPosition ∧
    (userStop s).animationFrame = s.animationFrame ∧
    (userStop s).animationData = s.animationData ∧
    (userStop s).animationStatus = s.animationStatus ∧
    (userStop s).showPlayResult = s.showPlayResult ∧
    (userStop s).playResult = s.playResult ∧
    (userStop s).isLoading = s.isLoading ∧
    (userStop s).timers = s.timers ∧
    (userStop s).requests = s.requests ∧
    animationEffect (userStop s) = .idle ∧
    tick (userStop s) = none ∧
    completeAnimation (userStop s) = none ∧
    tick (run (userStop s) events) = none ∧
    (∀ k, appliedFrames k (run (userStop s) events) = []) ∧
    (run (userStop s) events).ballPosition = s.ballPosition ∧
    (run (userStop s) events).players = dragsOnly events s.players := by
  have hs : (userStop s).isAnimating = false := rfl
  obtain ⟨_, ht, hc⟩ := tick_none_of_stopped (userStop s) hs
  obtain ⟨r1, r2, r3⟩ := run_stopped events (userStop s) hs hno
  obtain ⟨rc, rt, _⟩ := tick_none_of_stopped _ r1
  refine ⟨rfl, rfl, rfl, rfl, rfl, rfl, rfl, rfl, rfl, rfl, rfl,
    animationEffect_idle _ hs, ht, hc, rt, ?_, r2, r3⟩
  intro k
  cases k with
  | zero => rfl
  | succ k => simp [appliedFrames, rc]

/-- Witness for C3: Stop after the first frame of `demoMovement`, followed by
a drag, a stray frame-timer firing and a run of the effect. -/
theorem userStop_retains_last_frame_witness :
    (∀ e ∈ [Event.drag 3 10 20, Event.frameTimer, Event.effectRan],
      loadsSequence e = false) ∧
    tick (run (userStop (run initialState (demoStart ++ [.frameTimer])))
      [Event.drag 3 10 20, Event.frameTimer, Event.effectRan]) = none ∧
    (run (userStop (run initialState (demoStart ++ [.frameTimer])))
      [Event.drag 3 10 20, Event.frameTimer, Event.effectRan]).ballPosition
      = (run initialState (demoStart ++ [.frameTimer])).ballPosition := by
  have hno : ∀ e ∈ [Event.drag 3 10 20, Event.frameTimer, Event.effectRan],
      loadsSequence e = false := by decide
  obtain ⟨_, _, _, _, _, _, _, _, _, _, _, _, _, _, h15, _, h17, _⟩ :=
    userStop_retains_last_frame (run initialState (demoStart ++ [.frameTimer]))
      [Event.drag 3 10 20, Event.frameTimer, Event.effectRan] hno
  exact ⟨hno, h15, h17⟩

/-! ## Completion (C4) -/

theorem completeAnimation_isSome_iff (t : State) :
    (completeAnimation t).isSome = true ↔
      ∃ d, t.animationData = some d ∧ t.isAnimating = true ∧
        d.frames.length ≤ t.animationFrame := by
  unfold completeAnimation animationEffect
  cases hd : t.animationData with
  | none => simp
  | some d =>
    cases ha : t.isAnimating with
    | false => simp
    | true =>
      by_cases hlt : t.animationFrame < d.frames.length
      · simp [hlt]
      · have hge : d.frames.length ≤ t.animationFrame := by omega
        simp [hlt, hge]

theorem tick_none_of_finished (t : State) (d : MovementResult)
    (hd : t.animationData = some d) (hge : d.frames.length ≤ t.animationFrame) :
    tick t = none := by
  cases ht : tick t with
  | none => rfl
  | some u =>
    obtain ⟨d2, _, hd2, _, hlt, _, _⟩ := tick_some t u ht
    rw [hd] at hd2
    cases hd2
    omega

theorem foldl_all_but_last {α β : Type} (g : β → α → β) (init : β) (l : List α)
    (h : 1 ≤ l.length) :
    ∃ last, l[l.length - 1]? = some last ∧
      l.foldl g init = g ((l.take (l.length - 1)).foldl g init) last := by
  have hlt : l.length - 1 < l.length := by omega
  refine ⟨l.get ⟨l.length - 1, hlt⟩, List.getElem?_eq_getElem hlt, ?_⟩
  have hdrop : l.drop (l.length - 1) = [l.get ⟨l.length - 1, hlt⟩] := by
    have h1 := List.drop_eq_getElem_cons hlt
    have h2 : l.drop (l.length - 1 + 1) = [] := List.drop_eq_nil_of_le (by omega)
    rw [h2] at h1
    exact h1
  have hsplit := List.take_append_drop (l.length - 1) l
  rw [hdrop] at hsplit
  conv_lhs => rw [← hsplit]
  rw [List.foldl_append]
  rfl

/-- C4: playback of a sequence of length `L ≥ 1` completes after exactly `L`
ticks.  The completion branch fires exactly when `isAnimating` holds with a
loaded sequence and `animationFrame` has reached `frames.length`; each of the
first `L` ticks is enabled, raises `animationFrame` by one and does not
complete; after `L` ticks no tick is enabled and the completion step sets
`isAnimating` to false and the status to `Animation complete!`, schedules the
status to be cleared after 2000 ms, and leaves `players` and `ballPosition` as
the final frame `frames[L-1]` set them. -/
theorem playback_completes_after_all_frames (s : State) (d : MovementResult)
    (herr : truthy d.error = false) (hL : 1 ≤ d.frames.length) :
    (∀ t, (completeAnimation t).isSome = true ↔
      ∃ d2, t.animationData = some d2 ∧ t.isAnimating = true ∧
        d2.frames.length ≤ t.animationFrame) ∧
    (∀ k, k < d.frames.length →
      ∃ sk sk1, runTicks k (resumeStartAnimation s (.ok d)) = some sk ∧
        sk.animationFrame = k ∧ completeAnimation sk = none ∧
        tick sk = some sk1 ∧ sk1.animationFrame = k + 1) ∧
    ∃ sL last sC,
      runTicks d.frames.length (resumeStartAnimation s (.ok d)) = some sL ∧
      sL.animationFrame = d.frames.length ∧ sL.isAnimating = true ∧
      tick sL = none ∧
      d.frames[d.frames.length - 1]? = some last ∧
      sL.ballPosition = last.ball ∧
      sL.players = applyFrame last
        ((d.frames.take (d.frames.length - 1)).foldl (fun ps f => applyFrame f ps) s.players) ∧
      completeAnimation sL = some sC ∧
      sC.isAnimating = false ∧ sC.animationStatus = "Animation complete!" ∧
      sC.players = sL.players ∧ sC.ballPosition = sL.ballPosition ∧
      sC.animationFrame = sL.animationFrame ∧
      sC.timers = sL.timers ++ [{ delay := 2000, action := .clearStatus }] ∧
      (fireTimer sC sL.timers.length).map (fun u => u.animationStatus) = some "" := by
  obtain ⟨ha, hf, hd, hp, hb, _⟩ := resumeStartAnimation_loaded s d herr
  refine ⟨completeAnimation_isSome_iff, ?_, ?_⟩
  · intro k hk
    obtain ⟨sk, hrun, _, hfr, _, _, hA, hD, _⟩ :=
      runTicks_playing k (resumeStartAnimation s (.ok d)) d hd ha (by omega)
    rw [hf, Nat.zero_add] at hfr
    rw [ha] at hA
    rw [hd] at hD
    have hlt : sk.animationFrame < d.frames.length := by omega
    refine ⟨sk, _, hrun, hfr, ?_, tick_playing sk d hD hA hlt, ?_⟩
    · have he := animationEffect_scheduleTick sk d hD hA hlt
      simp [completeAnimation, he]
    · show sk.animationFrame + 1 = k + 1
      omega
  · obtain ⟨sL, hrun, _, hfr, hpl, hball, hA, hD, _⟩ :=
      runTicks_playing d.frames.length (resumeStartAnimation s (.ok d)) d hd ha (by omega)
    rw [hf] at hfr hpl hball
    rw [hp] at hpl
    rw [hb] at hball
    simp only [List.drop_zero, Nat.zero_add, List.take_length] at hfr hpl hball
    rw [ha] at hA
    rw [hd] at hD
    obtain ⟨last, hlast, hfold⟩ :=
      foldl_all_but_last (fun ps f => applyFrame f ps) s.players d.frames hL
    obtain ⟨last2, hlast2, hfold2⟩ :=
      foldl_all_but_last (fun (_ : Ball) (f : Frame) => f.ball) s.ballPosition d.frames hL
    rw [hlast] at hlast2
    cases hlast2
    have he : animationEffect sL = .complete := by
      simp [animationEffect, hD, hA, hfr]
    refine ⟨sL, last,
      { sL with
        isAnimating := false
        animationStatus := "Animation complete!"
        timers := sL.timers ++ [{ delay := 2000, action := .clearStatus }] },
      hrun, hfr, hA, tick_none_of_finished sL d hD (by omega), hlast,
      hball.trans hfold2, hpl.trans hfold, by simp only [completeAnimation, he, if_true],
      rfl, rfl, rfl, rfl, rfl, rfl, ?_⟩
    simp [fireTimer]

/-- Witness for C4: the two-frame sequence `demoMovement` from the state at
mount. -/
theorem playback_completes_after_all_frames_witness :
    truthy demoMovement.error = false ∧ 1 ≤ demoMovement.frames.length ∧
    ∀ k, k < demoMovement.frames.length →
      ∃ sk sk1, runTicks k (resumeStartAnimation initialState (.ok demoMovement)) = some sk ∧
        sk.animationFrame = k ∧ completeAnimation sk = none ∧
        tick sk = some sk1 ∧ sk1.animationFrame = k + 1 := by
  have h1 : truthy demoMovement.error = false := by decide
  have h2 : 1 ≤ demoMovement.frames.length := by decide
  obtain ⟨_, h, _⟩ := playback_completes_after_all_frames initialState demoMovement h1 h2
  exact ⟨h1, h2, h⟩

/-! ## Search while a cycle is in flight (C5) -/

theorem clickFindBestPlay_disabled (s : State)
    (h : s.isLoading = true ∨ s.isAnimating = true) :
    clickFindBestPlay s = s := by
  unfold clickFindBestPlay
  rcases h with h | h <;> simp [h]

/-- C5: the code at the failing input.  While the sequence is awaited (the
500 ms timer pending, or `getMovementData` pending) both `isLoading` and
`isAnimating` are false, so the find-best-play button is enabled; a click
changes the state and issues a second `fast-simulate` request. -/
theorem click_while_awaiting_sequence_searches_again :
    awaitingTimerState.isLoading = false ∧ awaitingTimerState.isAnimating = false ∧
    awaitingTimerState.timers = [{ delay := 500, action := .startAnimation "G1" "E1" }] ∧
    clickFindBestPlay awaitingTimerState ≠ awaitingTimerState ∧
    (clickFindBestPlay awaitingTimerState).isLoading = true ∧
    (clickFindBestPlay awaitingTimerState).requests
      = [.fastSimulate (positions initialPlayers), .fastSimulate (positions initialPlayers)] ∧
    awaitingFetchState.isLoading = false ∧ awaitingFetchState.isAnimating = false ∧
    awaitingFetchState.requests
      = [.fastSimulate (positions initialPlayers), .getMovementData "G1" "E1"] ∧
    clickFindBestPlay awaitingFetchState ≠ awaitingFetchState ∧
    (clickFindBestPlay awaitingFetchState).requests
      = [.fastSimulate (positions initialPlayers), .getMovementData "G1" "E1",
          .fastSimulate (positions initialPlayers)] := by
  refine ⟨?_, ?_, ?_, ?_, ?_, ?_, ?_, ?_, ?_, ?_, ?_⟩ <;> decide

/-! ## Drag (C6, C7) -/

/-- C6, as stated, fails: while the search is pending (`isLoading = true`) and
after playback has completed (status `Animation complete!`, before it is
cleared) a drag of player 1 rewrites `players`. -/
theorem drag_accepted_outside_playing :
    searchingState.isLoading = true ∧
    (handleDrag searchingState 1 0 0).players ≠ searchingState.players ∧
    completeState.animationStatus = "Animation complete!" ∧
    (handleDrag completeState 1 0 0).players ≠ completeState.players := by
  refine ⟨?_, ?_, ?_, ?_⟩ <;> decide

/-- C6, amended: drag-originated position writes are rejected exactly while
`isAnimating` is true (Playing); in every state with `isAnimating` false,
whatever `isLoading`, the pending timers and the status are, `handleDrag`
applies the point update to `players`. -/
theorem handleDrag_rejected_iff_animating (s : State) (id x y : Int) :
    (s.isAnimating = true → (handleDrag s id x y).players = s.players) ∧
    (s.isAnimating = false →
      (handleDrag s id x y).players = dragPlayers id x y s.players) := by
  constructor
  · intro h; simp [handleDrag, h]
  · intro h; simp [handleDrag, h]

/-- C7: `handleDrag(id, x, y)` is a point update.  It never writes
`ballPosition`; while animating it leaves `players` unchanged; otherwise the
list keeps its length, a player whose id equals `id` gets `(x, y)` with its id
and team kept, and every other player is unchanged; and if no player has that
id, `players` is unchanged. -/
theorem handleDrag_point_update (s : State) (id x y : Int) :
    (handleDrag s id x y).ballPosition = s.ballPosition ∧
    (s.isAnimating = true → (handleDrag s id x y).players = s.players) ∧
    (s.isAnimating = false →
      (handleDrag s id x y).players.length = s.players.length ∧
      ∀ (i : Nat) (p : Player), s.players[i]? = some p →
        (p.id = id →
          (handleDrag s id x y).players[i]? = some { id := p.id, x := x, y := y, team := p.team }) ∧
        (p.id ≠ id → (handleDrag s id x y).players[i]? = some p)) ∧
    ((∀ p ∈ s.players, p.id ≠ id) → (handleDrag s id x y).players = s.players) := by
  refine ⟨?_, ?_, ?_, ?_⟩
  · unfold handleDrag; split <;> rfl
  · intro h; simp [handleDrag, h]
  · intro h
    refine ⟨by simp [handleDrag, h, dragPlayers], ?_⟩
    intro i p hp
    constructor
    · intro hid
      simp [handleDrag, h, dragPlayers, hp, hid]
    · intro hid
      simp [handleDrag, h, dragPlayers, hp, hid]
  · intro hall
    unfold handleDrag
    split
    · show dragPlayers id x y s.players = s.players
      unfold dragPlayers
      conv_rhs => rw [← List.map_id s.players]
      apply List.map_congr_left
      intro p hp
      simp [hall p hp]
    · rfl

/-! ## Frame application and the roster (C8, C9, C10) -/

theorem applyFrame_getElem? (f : Frame) (l : List Player) (i : Nat) :
    (applyFrame f l)[i]? = (l[i]?).map fun player =>
      match f.players.find? (fun p => p.id == player.id) with
      | some framePlayer => { player with x := framePlayer.x, y := framePlayer.y }
      | none => player := by
  simp [applyFrame, List.getElem?_map]

theorem find?_none_of_omitted (f : Frame) (p : Player)
    (h : ∀ q ∈ f.players, q.id ≠ p.id) :
    f.players.find? (fun q => q.id == p.id) = none := by
  rw [List.find?_eq_none]
  intro q hq
  simpa using h q hq

theorem applyFrame_keys (f : Frame) (l : List Player) :
    (applyFrame f l).map (fun p => (p.id, p.team)) = l.map (fun p => (p.id, p.team)) := by
  unfold applyFrame
  rw [List.map_map]
  apply List.map_congr_left
  intro p _
  simp only [Function.comp]
  split <;> rfl

theorem dragPlayers_keys (id x y : Int) (l : List Player) :
    (dragPlayers id x y l).map (fun p => (p.id, p.team))
      = l.map (fun p => (p.id, p.team)) := by
  unfold dragPlayers
  rw [List.map_map]
  apply List.map_congr_left
  intro p _
  simp only [Function.comp]
  split <;> rfl

/-- C8, as stated, fails: the first frame of `demoMovement` names only ids 1
and 6, so it omits roster id 2; the tick is enabled all the same and applies
it, moving players 1 and 6 and leaving player 2 where it was. -/
theorem incomplete_frame_is_applied :
    currentFrame (run initialState demoStart)
      = some { players := [⟨1, 210, 310⟩, ⟨6, 250, 305⟩], ball := ⟨210, 310, 12⟩ } ∧
    (∃ p ∈ (run initialState demoStart).players,
      ∀ q ∈ [(⟨1, 210, 310⟩ : FramePlayer), ⟨6, 250, 305⟩], q.id ≠ p.id) ∧
    (tick (run initialState demoStart)).map (fun t => t.players)
      ≠ some (run initialState demoStart).players ∧
    (tick (run initialState demoStart)).map (fun t => t.players.take 2)
      = some [⟨1, 210, 310, "red"⟩, ⟨2, 180, 200, "red"⟩] ∧
    (run initialState demoStart).players.take 2
      = [⟨1, 200, 300, "red"⟩, ⟨2, 180, 200, "red"⟩] := by
  refine ⟨?_, ⟨⟨2, 180, 200, "red"⟩, ?_, ?_⟩, ?_, ?_, ?_⟩ <;> decide

/-- C8, amended: a frame whose player list omits roster ids is not rejected.
Whenever the frame timer is pending the tick applies the current frame
whatever its player list: it advances `animationFrame`, sets `ballPosition`,
keeps the length of `players`, leaves every player whose id the frame omits
unchanged, and gives every player whose id the frame names the position of the
first frame entry with that id. -/
theorem incomplete_frame_carries_forward (s : State) (d : MovementResult)
    (hd : s.animationData = some d) (ha : s.isAnimating = true)
    (hlt : s.animationFrame < d.frames.length) :
    ∃ t f, d.frames[s.animationFrame]? = some f ∧ tick s = some t ∧
      t.animationFrame = s.animationFrame + 1 ∧ t.ballPosition = f.ball ∧
      t.players.length = s.players.length ∧
      (∀ (i : Nat) (p : Player), s.players[i]? = some p →
        (∀ q ∈ f.players, q.id ≠ p.id) → t.players[i]? = some p) ∧
      (∀ (i : Nat) (p : Player) (q : FramePlayer), s.players[i]? = some p →
        f.players.find? (fun e => e.id == p.id) = some q →
        t.players[i]? = some { id := p.id, x := q.x, y := q.y, team := p.team }) := by
  refine ⟨_, d.frames.get ⟨s.animationFrame, hlt⟩, List.getElem?_eq_getElem hlt,
    tick_playing s d hd ha hlt, rfl, rfl, ?_, ?_, ?_⟩
  · simp [applyFrame]
  · intro i p hp hom
    show (applyFrame _ s.players)[i]? = some p
    rw [applyFrame_getElem?, hp]
    simp only [Option.map_some', find?_none_of_omitted _ p hom]
  · intro i p q hp hq
    show (applyFrame _ s.players)[i]? = _
    rw [applyFrame_getElem?, hp]
    simp only [Option.map_some', hq]

/-- Witness for C8 (amended): the first tick of `demoMovement` from mount. -/
theorem incomplete_frame_carries_forward_witness :
    (run initialState demoStart).animationData = some demoMovement ∧
    (run initialState demoStart).isAnimating = true ∧
    (run initialState demoStart).animationFrame < demoMovement.frames.length ∧
    ∃ t f, demoMovement.frames[(run initialState demoStart).animationFrame]? = some f ∧
      tick (run initialState demoStart) = some t ∧
      t.animationFrame = (run initialState demoStart).animationFrame + 1 ∧
      t.ballPosition = f.ball ∧
      t.players.length = (run initialState demoStart).players.length ∧
      (∀ (i : Nat) (p : Player), (run initialState demoStart).players[i]? = some p →
        (∀ q ∈ f.players, q.id ≠ p.id) → t.players[i]? = some p) ∧
      (∀ (i : Nat) (p : Player) (q : FramePlayer),
        (run initialState demoStart).players[i]? = some p →
        f.players.find? (fun e => e.id == p.id) = some q →
        t.players[i]? = some { id := p.id, x := q.x, y := q.y, team := p.team }) := by
  have h1 : (run initialState demoStart).animationData = some demoMovement := by decide
  have h2 : (run initialState demoStart).isAnimating = true := by decide
  have h3 : (run initialState demoStart).animationFrame < demoMovement.frames.length := by
    decide
  exact ⟨h1, h2, h3,
    incomplete_frame_carries_forward (run initialState demoStart) demoMovement h1 h2 h3⟩

theorem rosterReachable_keys (roster : List Player) (h : RosterReachable roster) :
    roster.map (fun p => (p.id, p.team)) = initialPlayers.map (fun p => (p.id, p.team)) := by
  induction h with
  | initial => rfl
  | drag id x y _ ih => rw [dragPlayers_keys]; exact ih
  | frame f _ ih => rw [applyFrame_keys]; exact ih

theorem initial_key_at (i : Nat) (k : Int × String)
    (h : (initialPlayers.map (fun p => (p.id, p.team)))[i]? = some k) :
    i < 10 ∧ k.1 = (i : Int) + 1 ∧ k.2 = (if i < 5 then "red" else "blue") := by
  have hi : i < 10 := by
    by_contra hge
    rw [List.getElem?_eq_none (by simp [initialPlayers]; omega)] at h
    cases h
  interval_cases i <;>
    simp [initialPlayers] at h <;> subst h <;> simp

/-- C9: for every roster reachable from the initial roster by drags and frame
applications, the `positions` body built by `findBestPlay` has the length and
order of the roster, and its item at index `i` carries the `x` and `y` of the
player at index `i`, a `player_id = i + 1` equal to that player's id, and a
`team_id` (0 for `i < 5`, else 1) that is 0 exactly when the player's team is
`red` and 1 exactly when it is `blue`. -/
theorem positions_serialize_roster (roster : List Player) (h : RosterReachable roster) :
    (positions roster).length = roster.length ∧
    ∀ (i : Nat) (p : Player), roster[i]? = some p →
      ∃ q, (positions roster)[i]? = some q ∧ q.x = p.x ∧ q.y = p.y ∧
        q.player_id = (i : Int) + 1 ∧ q.player_id = p.id ∧
        q.team_id = (if i < 5 then 0 else 1) ∧
        (q.team_id = 0 ↔ p.team = "red") ∧ (q.team_id = 1 ↔ p.team = "blue") := by
  refine ⟨by simp [positions], ?_⟩
  intro i p hp
  have hk : (initialPlayers.map (fun p => (p.id, p.team)))[i]? = some (p.id, p.team) := by
    rw [← rosterReachable_keys roster h, List.getElem?_map, hp]
    rfl
  obtain ⟨_, hid, hteam⟩ := initial_key_at i _ hk
  simp only at hid hteam
  refine ⟨{ player_id := (i : Int) + 1, team_id := if i < 5 then 0 else 1, x := p.x, y := p.y },
    by simp [positions, hp], rfl, rfl, rfl, hid.symm, rfl, ?_, ?_⟩
  · by_cases h5 : i < 5 <;> simp [h5, hteam]
  · by_cases h5 : i < 5 <;> simp [h5, hteam]

/-- Witness for C9: the roster after dragging player 7 and applying the first
frame of `demoMovement`. -/
theorem positions_serialize_roster_witness :
    RosterReachable
      (applyFrame ⟨[⟨1, 210, 310⟩, ⟨6, 250, 305⟩], ⟨210, 310, 12⟩⟩
        (dragPlayers 7 11 22 initialPlayers)) ∧
    (positions (applyFrame ⟨[⟨1, 210, 310⟩, ⟨6, 250, 305⟩], ⟨210, 310, 12⟩⟩
        (dragPlayers 7 11 22 initialPlayers))).length
      = (applyFrame ⟨[⟨1, 210, 310⟩, ⟨6, 250, 305⟩], ⟨210, 310, 12⟩⟩
        (dragPlayers 7 11 22 initialPlayers)).length :=
  ⟨.frame _ (.drag 7 11 22 .initial),
    (positions_serialize_roster _ (.frame _ (.drag 7 11 22 .initial))).1⟩

/-- C10: the roster is fixed.  The initial list has 10 players with pairwise
distinct ids 1..10, five `red` followed by five `blue`; `handleDrag`, frame
application and the tick, for any id, coordinates and frame, keep the length
of `players` and, position by position, each player's id and team. -/
theorem roster_fixed (s : State) (id x y : Int) (f : Frame) :
    initialPlayers.length = 10 ∧
    initialPlayers.map (fun p => p.id) = [1, 2, 3, 4, 5, 6, 7, 8, 9, 10] ∧
    (initialPlayers.map (fun p => p.id)).Nodup ∧
    initialPlayers.map (fun p => p.team)
      = ["red", "red", "red", "red", "red", "blue", "blue", "blue", "blue", "blue"] ∧
    (handleDrag s id x y).players.length = s.players.length ∧
    (handleDrag s id x y).players.map (fun p => (p.id, p.team))
      = s.players.map (fun p => (p.id, p.team)) ∧
    (applyFrame f s.players).length = s.players.length ∧
    (applyFrame f s.players).map (fun p => (p.id, p.team))
      = s.players.map (fun p => (p.id, p.team)) ∧
    (∀ t, tick s = some t →
      t.players.length = s.players.length ∧
      t.players.map (fun p => (p.id, p.team)) = s.players.map (fun p => (p.id, p.team))) := by
  have hdrag : (handleDrag s id x y).players.map (fun p => (p.id, p.team))
      = s.players.map (fun p => (p.id, p.team)) := by
    unfold handleDrag
    split
    · exact dragPlayers_keys id x y s.players
    · rfl
  refine ⟨rfl, rfl, by decide, rfl, ?_, hdrag, by simp [applyFrame], applyFrame_keys f _, ?_⟩
  · have := congrArg List.length hdrag
    simpa using this
  · intro t ht
    obtain ⟨d, g, _, _, _, _, rfl⟩ := tick_some s t ht
    exact ⟨by simp [applyFrame], applyFrame_keys g _⟩

/-! ## Failed requests (C11) -/

theorem eraseIdx_append_singleton {α : Type} (l : List α) (a : α) :
    (l ++ [a]).eraseIdx l.length = l := by
  induction l with
  | nil => rfl
  | cons b rest ih => simp [List.eraseIdx, ih]

theorem resumeStartAnimation_failure (s : State) (response : Except String MovementResult)
    (hfail : sequenceFails response = true) :
    (resumeStartAnimation s response).isAnimating = s.isAnimating ∧
    (resumeStartAnimation s response).animationData = s.animationData ∧
    (resumeStartAnimation s response).players = s.players ∧
    (resumeStartAnimation s response).ballPosition = s.ballPosition ∧
    (resumeStartAnimation s response).timers
      = s.timers ++ [{ delay := 5000, action := .clearStatus }] ∧
    (resumeStartAnimation s response).animationStatus
      = (match response with
        | .error msg => "Animation failed: " ++ msg
        | .ok r => "Real NBA data not available: " ++ r.error.getD "") ∧
    (fireTimer (resumeStartAnimation s response) s.timers.length).map
      (fun u => (u.animationStatus, u.timers)) = some ("", s.timers) := by
  cases response with
  | error msg => simp [resumeStartAnimation, fireTimer, eraseIdx_append_singleton]
  | ok r =>
    have hr : truthy r.error = true := by simpa [sequenceFails] using hfail
    simp [resumeStartAnimation, hr, fireTimer, eraseIdx_append_singleton]

theorem resumeFindBestPlay_thrown (s : State) (result : MatchResult)
    (herr : truthy result.error = false) (hbest : result.best_play = none) :
    (resumeFindBestPlay s (.ok result)).isAnimating = s.isAnimating ∧
    (resumeFindBestPlay s (.ok result)).animationStatus = "Search failed" ∧
    (resumeFindBestPlay s (.ok result)).timers
      = s.timers ++ [{ delay := 3000, action := .clearStatus }] := by
  simp [resumeFindBestPlay, herr, hbest, searchFailed]

theorem resumeFindBestPlay_failure (s : State) (response : Except String MatchResult)
    (hfail : matchFails response = true) :
    (resumeFindBestPlay s response).isAnimating = s.isAnimating ∧
    (resumeFindBestPlay s response).isLoading = false ∧
    (resumeFindBestPlay s response).players = s.players ∧
    (resumeFindBestPlay s response).timers = s.timers ∧
    (resumeFindBestPlay s response).animationStatus
      = (match response with
        | .error msg => "Error: " ++ msg
        | .ok r => "Error: " ++ r.error.getD "") := by
  cases response with
  | error msg =>
    have hm : truthy (some msg) = true := by simpa [matchFails] using hfail
    simp [resumeFindBestPlay, hm]
  | ok r =>
    have hr : truthy r.error = true := by simpa [matchFails] using hfail
    simp [resumeFindBestPlay, hr]

/-- C11: the code at the failing input.  A match request answered with
`error: "no match found"`, or whose `fetch` failed, leaves the status
`Error: ...` with playback off and the button enabled again, but schedules no
timer: no pending callback exists that would clear the status.  The sibling
failure paths do schedule one: a failed sequence fetch from the same point
appends a 5000 ms `clearStatus` timer. -/
theorem match_error_status_is_not_cleared :
    matchFails (.ok noMatchResponse) = true ∧
    matchFailedState.animationStatus = "Error: no match found" ∧
    matchFailedState.isAnimating = false ∧ matchFailedState.isLoading = false ∧
    matchFailedState.timers = [] ∧
    (∀ i, fireTimer matchFailedState i = none) ∧
    matchFails (.error "Simulation failed") = true ∧
    matchThrewState.animationStatus = "Error: Simulation failed" ∧
    matchThrewState.isAnimating = false ∧
    matchThrewState.timers = [] ∧
    (∀ i, fireTimer matchThrewState i = none) ∧
    (resumeStartAnimation awaitingFetchState (.error "Movement data failed")).timers
      = [{ delay := 5000, action := .clearStatus }] ∧
    (resumeStartAnimation awaitingFetchState
        (.ok { error := some "not found", frames := [], note := none })).timers
      = [{ delay := 5000, action := .clearStatus }] := by
  have h1 : matchFailedState.timers = [] := by decide
  have h2 : matchThrewState.timers = [] := by decide
  refine ⟨by decide, by decide, by decide, by decide, h1, ?_, by decide, by decide,
    by decide, h2, ?_, by decide, by decide⟩
  · intro i; simp [fireTimer, h1]
  · intro i; simp [fireTimer, h2]

/-! ## Empty sequence (C12) -/

/-- C12, as stated, fails: a sequence response with no `error` and an empty
`frames` list is loaded like any other.  `startAnimation` sets `isAnimating`
to true with the status `Playing REAL NBA DATA: 0 frames ...` and schedules no
failure timer, and the completion branch of the effect then reports
`Animation complete!`. -/
theorem empty_sequence_starts_playback :
    truthy emptyMovement.error = false ∧ emptyMovement.frames.length = 0 ∧
    sequenceFails (.ok emptyMovement) = false ∧
    awaitingFetchState.isAnimating = false ∧
    (resumeStartAnimation awaitingFetchState (.ok emptyMovement)).isAnimating = true ∧
    (resumeStartAnimation awaitingFetchState (.ok emptyMovement)).animationStatus
      = "Playing REAL NBA DATA: 0 frames from NBA game" ∧
    (resumeStartAnimation awaitingFetchState (.ok emptyMovement)).timers = [] ∧
    (completeAnimation (resumeStartAnimation awaitingFetchState (.ok emptyMovement))).map
      (fun u => u.animationStatus) = some "Animation complete!" := by
  refine ⟨?_, ?_, ?_, ?_, ?_, ?_, ?_, ?_⟩ <;> decide

/-- C12, amended: a sequence response with no `error` and an empty `frames`
list is a successful load that plays zero frames.  `startAnimation` stores it,
sets `animationFrame = 0` and `isAnimating = true` and schedules no failure
timer; no tick is enabled, so `players` and `ballPosition` are never written;
the completion branch fires at once, setting `isAnimating` to false and the
status to `Animation complete!` with a 2000 ms timer to clear it. -/
theorem empty_sequence_completes_at_once (s : State) (d : MovementResult)
    (herr : truthy d.error = false) (hempty : d.frames.length = 0) :
    (resumeStartAnimation s (.ok d)).isAnimating = true ∧
    (resumeStartAnimation s (.ok d)).animationData = some d ∧
    (resumeStartAnimation s (.ok d)).animationFrame = 0 ∧
    (resumeStartAnimation s (.ok d)).timers = s.timers ∧
    (resumeStartAnimation s (.ok d)).players = s.players ∧
    (resumeStartAnimation s (.ok d)).ballPosition = s.ballPosition ∧
    tick (resumeStartAnimation s (.ok d)) = none ∧
    (∀ k, appliedFrames k (resumeStartAnimation s (.ok d)) = []) ∧
    ∃ sC, completeAnimation (resumeStartAnimation s (.ok d)) = some sC ∧
      sC.isAnimating = false ∧ sC.animationStatus = "Animation complete!" ∧
      sC.players = s.players ∧ sC.ballPosition = s.ballPosition ∧
      sC.timers = s.timers ++ [{ delay := 2000, action := .clearStatus }] := by
  obtain ⟨ha, hf, hd, hp, hb, htm⟩ := resumeStartAnimation_loaded s d herr
  have hge : d.frames.length ≤ (resumeStartAnimation s (.ok d)).animationFrame := by omega
  have htick := tick_none_of_finished _ d hd hge
  have hcur : currentFrame (resumeStartAnimation s (.ok d)) = none := by
    cases hc : currentFrame (resumeStartAnimation s (.ok d)) with
    | none => rfl
    | some f =>
      obtain ⟨d2, hd2, _, hlt, _⟩ := currentFrame_some _ f hc
      rw [hd] at hd2
      cases hd2
      omega
  have he : animationEffect (resumeStartAnimation s (.ok d)) = .complete := by
    simp [animationEffect, hd, ha, hf, hempty]
  refine ⟨ha, hd, hf, htm, hp, hb, htick, ?_, ?_⟩
  · intro k
    cases k with
    | zero => rfl
    | succ k => simp [appliedFrames, hcur]
  · refine ⟨{ resumeStartAnimation s (.ok d) with
        isAnimating := false
        animationStatus := "Animation complete!"
        timers := (resumeStartAnimation s (.ok d)).timers
          ++ [{ delay := 2000, action := .clearStatus }] }, ?_, rfl, rfl, hp, hb, ?_⟩
    · simp only [completeAnimation, he, if_true]
    · show (resumeStartAnimation s (.ok d)).timers ++ _ = _
      rw [htm]

/-- Witness for C12 (amended): `emptyMovement` arriving while the sequence is
awaited. -/
theorem empty_sequence_completes_at_once_witness :
    truthy emptyMovement.error = false ∧ emptyMovement.frames.length = 0 ∧
    (resumeStartAnimation awaitingFetchState (.ok emptyMovement)).isAnimating = true ∧
    tick (resumeStartAnimation awaitingFetchState (.ok emptyMovement)) = none := by
  have h1 : truthy emptyMovement.error = false := by decide
  have h2 : emptyMovement.frames.length = 0 := by decide
  obtain ⟨ha, _, _, _, _, _, ht, _⟩ :=
    empty_sequence_completes_at_once awaitingFetchState emptyMovement h1 h2
  exact ⟨h1, h2, ha, ht⟩

/-! ## Carry-forward and unknown ids (C13) -/

theorem find?_first_entry (entries : List FramePlayer) (pid : Int) :
    ∀ (pre : List FramePlayer) (q : FramePlayer) (post : List FramePlayer),
      entries = pre ++ q :: post → (∀ e ∈ pre, e.id ≠ pid) → q.id = pid →
      entries.find? (fun e => e.id == pid) = some q := by
  intro pre
  induction pre generalizing entries with
  | nil =>
    intro q post hsplit _ hq
    subst hsplit
    simp [List.find?, hq]
  | cons a rest ih =>
    intro q post hsplit hpre hq
    subst hsplit
    have ha : a.id ≠ pid := hpre a (List.mem_cons_self _ _)
    have hrest := ih (rest ++ q :: post) q post rfl
      (fun e he => hpre e (List.mem_cons_of_mem _ he)) hq
    show List.find? (fun e => e.id == pid) (a :: (rest ++ q :: post)) = some q
    rw [List.find?_cons_of_neg _ (by simpa using ha)]
    exact hrest

/-- C13: applying a frame carries forward missing entities and drops unknown
ones.  After a tick, `players` is the old list with the current frame applied:
it has the same length and, position by position, the same ids and teams, so
frame entries whose id is not in the roster add nothing; a player whose id
occurs in the frame takes the `x` and `y` of the first frame entry with that
id; a player whose id does not occur in the frame keeps its `x` and `y`. -/
theorem tick_carries_forward_and_drops_unknown (s t : State) (ht : tick s = some t) :
    ∃ f, currentFrame s = some f ∧ t.players = applyFrame f s.players ∧
      t.players.length = s.players.length ∧
      t.players.map (fun p => (p.id, p.team)) = s.players.map (fun p => (p.id, p.team)) ∧
      (∀ e ∈ f.players, (∀ p ∈ s.players, p.id ≠ e.id) → ∀ p ∈ t.players, p.id ≠ e.id) ∧
      ∀ (i : Nat) (p : Player), s.players[i]? = some p →
        ∃ p2, t.players[i]? = some p2 ∧ p2.id = p.id ∧ p2.team = p.team ∧
          (∀ (pre : List FramePlayer) (q : FramePlayer) (post : List FramePlayer),
            f.players = pre ++ q :: post → (∀ e ∈ pre, e.id ≠ p.id) → q.id = p.id →
            p2.x = q.x ∧ p2.y = q.y) ∧
          ((∀ q ∈ f.players, q.id ≠ p.id) → p2.x = p.x ∧ p2.y = p.y) := by
  obtain ⟨d, f, hd, ha, hlt, hf, rfl⟩ := tick_some s t ht
  have hcur : currentFrame s = some f := by
    rw [currentFrame_playing s d hd ha hlt, ← hf]
    exact (List.getElem?_eq_getElem hlt).symm
  have hkeys := applyFrame_keys f s.players
  refine ⟨f, hcur, rfl, by simp [applyFrame], hkeys, ?_, ?_⟩
  · intro e _ hunknown p hp
    have hmem : (p.id, p.team) ∈ (applyFrame f s.players).map (fun p => (p.id, p.team)) :=
      List.mem_map_of_mem _ hp
    rw [hkeys] at hmem
    obtain ⟨p0, hp0, hpair⟩ := List.mem_map.mp hmem
    have hid : p0.id = p.id := congrArg Prod.fst hpair
    rw [← hid]
    exact hunknown p0 hp0
  · intro i p hp
    have hget : (applyFrame f s.players)[i]? = some
        (match f.players.find? (fun e => e.id == p.id) with
          | some framePlayer => { p with x := framePlayer.x, y := framePlayer.y }
          | none => p) := by
      rw [applyFrame_getElem?, hp]
      rfl
    refine ⟨_, hget, ?_, ?_, ?_, ?_⟩
    · split <;> rfl
    · split <;> rfl
    · intro pre q post hsplit hpre hq
      rw [find?_first_entry f.players p.id pre q post hsplit hpre hq]
      exact ⟨rfl, rfl⟩
    · intro hom
      rw [find?_none_of_omitted f p hom]
      exact ⟨rfl, rfl⟩

/-- Witness for C13: the first tick of `demoMovement` from mount, whose frame
names roster ids 1 and 6 only. -/
theorem tick_carries_forward_and_drops_unknown_witness :
    tick (run initialState demoStart)
      = some (run initialState (demoStart ++ [.frameTimer])) ∧
    ∃ f, currentFrame (run initialState demoStart) = some f ∧
      (run initialState (demoStart ++ [.frameTimer])).players
        = applyFrame f (run initialState demoStart).players := by
  have h : tick (run initialState demoStart)
      = some (run initialState (demoStart ++ [.frameTimer])) := by decide
  obtain ⟨f, hc, hp, _⟩ := tick_carries_forward_and_drops_unknown _ _ h
  exact ⟨h, f, hc, hp⟩

end Court
